import Mathlib

/-!
A shallow embedding of `src/olx.py`, a sequential web-scraping script, and
proofs of the behavioural properties of its three core functions
`download_image`, `scrape_olx` and `save_to_excel`, plus `main`.

Modelling conventions:
* Bytes are `Nat`; a file's content is a `List Nat`.
* The local filesystem is an association list `Fs`; a write prepends, and
  lookups see the newest entry first, so a later write shadows an earlier one.
* The network is a function `Nat → HttpOutcome` giving the outcome of the
  i-th HTTP GET of an image URL (0-based attempt index): either a
  `requests.RequestException` (`netError`) or a response with a status code
  and a body.
* A Python exception escaping a function is an `Except.error` carrying a
  `PyExn`; opening the target file for writing is modelled as an atomic
  step that either succeeds (`writeOk = true`) or raises `OSError` before
  touching the filesystem.
* Time (`time.sleep`) is modelled by counting calls; `DELAY` itself has no
  observable effect beyond that count.
* Selenium's DOM is a function `Nat → List Card` giving the listing cards
  found on each page; a card either yields its five extracted strings or
  raises during extraction (`fields = none`).
-/

/-- Exceptions that can escape the modelled Python functions. -/
inductive PyExn where
  | osError
  | timeoutException
  | valueError
  | keyError
  | fileNotFoundError
  | driverStartup
deriving DecidableEq

/-- Outcome of one `requests.get(image_url, timeout=10)` call:
a network error (`requests.RequestException`) or a response with a
status code and the bytes of its body (`response.content`). -/
inductive HttpOutcome where
  | netError : HttpOutcome
  | resp : Nat → List Nat → HttpOutcome

/-- `isSuccess o` holds exactly when the outcome is a response with
status code 200, the only case the source treats as success. -/
def isSuccess : HttpOutcome → Bool
  | HttpOutcome.resp status _ => status == 200
  | HttpOutcome.netError => false

/-- The local filesystem: newest-first association list from filename to
file content. -/
abbrev Fs := List (String × List Nat)

/-- Look a filename up in the filesystem (newest entry wins). -/
def fsGet : Fs → String → Option (List Nat)
  | [], _ => none
  | (k, v) :: rest, name => if k = name then some v else fsGet rest name

/-- `open(filename, 'wb'); handler.write(content)`: create or overwrite
the file at `name` with `content`. -/
def fsWrite (fs : Fs) (name : String) (content : List Nat) : Fs :=
  (name, content) :: fs

/-- Constant `RETRIES = 5` from the source. -/
def RETRIES : Nat := 5

/-- Constant `DELAY = 2` from the source (seconds slept between attempts;
only the number of sleeps is observable in the model). -/
def DELAY : Nat := 2

/-- Constant `IMAGE_DIR = 'images'` from the source. -/
def IMAGE_DIR : String := "images"

/-- Result of a `download_image` call that returned normally: the boolean
return value, the filesystem afterwards, the number of GET requests
performed and the number of `time.sleep(delay)` calls made. -/
structure DIResult where
  retval : Bool
  fs : Fs
  gets : Nat
  sleeps : Nat
deriving DecidableEq

/-- The retry loop body of `download_image`: `attempt` is the current
0-based attempt index, the last argument the number of attempts left.
Each iteration performs one GET; on a 200 response it writes the body to
`filename` and returns `True` (raising `OSError` if the open fails),
otherwise it prints, sleeps `delay` seconds and retries; when attempts
are exhausted it returns `False`. -/
def download_image_go (get : Nat → HttpOutcome) (filename : String) (writeOk : Bool)
    (fs : Fs) : Nat → Nat → Except PyExn DIResult
  | _, 0 => Except.ok ⟨false, fs, 0, 0⟩
  | attempt, Nat.succ rem =>
    match get attempt with
    | HttpOutcome.resp status content =>
      if status = 200 then
        if writeOk then Except.ok ⟨true, fsWrite fs filename content, 1, 0⟩
        else Except.error PyExn.osError
      else
        match download_image_go get filename writeOk fs (attempt + 1) rem with
        | Except.ok r => Except.ok ⟨r.retval, r.fs, r.gets + 1, r.sleeps + 1⟩
        | Except.error e => Except.error e
    | HttpOutcome.netError =>
      match download_image_go get filename writeOk fs (attempt + 1) rem with
      | Except.ok r => Except.ok ⟨r.retval, r.fs, r.gets + 1, r.sleeps + 1⟩
      | Except.error e => Except.error e

/-- `download_image(image_url, filename, retries, delay)` from the source:
run the retry loop starting at attempt 0 with `retries` attempts
available. `get` gives the outcome of each GET of `image_url`, `writeOk`
whether opening `filename` for writing succeeds. -/
def download_image (get : Nat → HttpOutcome) (filename : String) (writeOk : Bool)
    (fs : Fs) (retries : Nat) : Except PyExn DIResult :=
  download_image_go get filename writeOk fs 0 retries

lemma download_image_go_allFail (get : Nat → HttpOutcome) (filename : String)
    (writeOk : Bool) (fs : Fs) :
    ∀ rem attempt, (∀ i, i < rem → isSuccess (get (attempt + i)) = false) →
    download_image_go get filename writeOk fs attempt rem =
      Except.ok ⟨false, fs, rem, rem⟩ := by
  intro rem
  induction rem with
  | zero => intro attempt _; rfl
  | succ rem ih =>
    intro attempt h
    have h0 : isSuccess (get attempt) = false := by
      simpa using h 0 (Nat.succ_pos rem)
    have hrest : ∀ i, i < rem → isSuccess (get (attempt + 1 + i)) = false := by
      intro i hi
      have := h (i + 1) (by omega)
      rwa [show attempt + (i + 1) = attempt + 1 + i by omega] at this
    cases hg : get attempt with
    | netError =>
      simp only [download_image_go, hg, ih (attempt + 1) hrest]
    | resp status content =>
      have hs : status ≠ 200 := by
        intro hc; rw [hg, hc] at h0; simp [isSuccess] at h0
      simp only [download_image_go, hg, if_neg hs, ih (attempt + 1) hrest]

lemma download_image_go_firstSuccess (get : Nat → HttpOutcome) (filename : String)
    (fs : Fs) :
    ∀ k rem attempt body, k < rem → get (attempt + k) = HttpOutcome.resp 200 body →
    (∀ i, i < k → isSuccess (get (attempt + i)) = false) →
    download_image_go get filename true fs attempt rem =
      Except.ok ⟨true, fsWrite fs filename body, k + 1, k⟩ := by
  intro k
  induction k with
  | zero =>
    intro rem attempt body hlt hk _
    cases rem with
    | zero => omega
    | succ rem =>
      rw [Nat.add_zero] at hk
      simp [download_image_go, hk]
  | succ k ih =>
    intro rem attempt body hlt hk hfail
    cases rem with
    | zero => omega
    | succ rem =>
      have h0 : isSuccess (get attempt) = false := by
        simpa using hfail 0 (Nat.succ_pos k)
      have hk' : get (attempt + 1 + k) = HttpOutcome.resp 200 body := by
        rwa [show attempt + (k + 1) = attempt + 1 + k by omega] at hk
      have hfail' : ∀ i, i < k → isSuccess (get (attempt + 1 + i)) = false := by
        intro i hi
        have := hfail (i + 1) (by omega)
        rwa [show attempt + (i + 1) = attempt + 1 + i by omega] at this
      have hrec := ih rem (attempt + 1) body (by omega) hk' hfail'
      cases hg : get attempt with
      | netError =>
        simp only [download_image_go, hg, hrec]
      | resp status content =>
        have hs : status ≠ 200 := by
          intro hc; rw [hg, hc] at h0; simp [isSuccess] at h0
        simp only [download_image_go, hg, if_neg hs, hrec]

lemma download_image_go_firstSuccess_writeFail (get : Nat → HttpOutcome)
    (filename : String) (fs : Fs) :
    ∀ k rem attempt body, k < rem → get (attempt + k) = HttpOutcome.resp 200 body →
    (∀ i, i < k → isSuccess (get (attempt + i)) = false) →
    download_image_go get filename false fs attempt rem =
      Except.error PyExn.osError := by
  intro k
  induction k with
  | zero =>
    intro rem attempt body hlt hk _
    cases rem with
    | zero => omega
    | succ rem =>
      rw [Nat.add_zero] at hk
      simp [download_image_go, hk]
  | succ k ih =>
    intro rem attempt body hlt hk hfail
    cases rem with
    | zero => omega
    | succ rem =>
      have h0 : isSuccess (get attempt) = false := by
        simpa using hfail 0 (Nat.succ_pos k)
      have hk' : get (attempt + 1 + k) = HttpOutcome.resp 200 body := by
        rwa [show attempt + (k + 1) = attempt + 1 + k by omega] at hk
      have hfail' : ∀ i, i < k → isSuccess (get (attempt + 1 + i)) = false := by
        intro i hi
        have := hfail (i + 1) (by omega)
        rwa [show attempt + (i + 1) = attempt + 1 + i by omega] at this
      have hrec := ih rem (attempt + 1) body (by omega) hk' hfail'
      cases hg : get attempt with
      | netError =>
        simp only [download_image_go, hg, hrec]
      | resp status content =>
        have hs : status ≠ 200 := by
          intro hc; rw [hg, hc] at h0; simp [isSuccess] at h0
        simp only [download_image_go, hg, if_neg hs, hrec]

lemma download_image_go_ok_of_writeOk (get : Nat → HttpOutcome) (filename : String)
    (fs : Fs) :
    ∀ rem attempt, ∃ r, download_image_go get filename true fs attempt rem =
      Except.ok r := by
  intro rem
  induction rem with
  | zero => intro attempt; exact ⟨_, rfl⟩
  | succ rem ih =>
    intro attempt
    cases hg : get attempt with
    | netError =>
      obtain ⟨r, hr⟩ := ih (attempt + 1)
      exact ⟨⟨r.retval, r.fs, r.gets + 1, r.sleeps + 1⟩,
        by simp only [download_image_go, hg, hr]⟩
    | resp status content =>
      by_cases hs : status = 200
      · exact ⟨⟨true, fsWrite fs filename content, 1, 0⟩,
          by simp [download_image_go, hg, if_pos hs]⟩
      · obtain ⟨r, hr⟩ := ih (attempt + 1)
        exact ⟨⟨r.retval, r.fs, r.gets + 1, r.sleeps + 1⟩,
          by simp only [download_image_go, hg, if_neg hs, hr]⟩

lemma download_image_go_error_spec (get : Nat → HttpOutcome) (filename : String)
    (writeOk : Bool) (fs : Fs) :
    ∀ rem attempt e, download_image_go get filename writeOk fs attempt rem =
      Except.error e → e = PyExn.osError ∧ writeOk = false := by
  intro rem
  induction rem with
  | zero => intro attempt e h; exact absurd h (by simp [download_image_go])
  | succ rem ih =>
    intro attempt e h
    cases hg : get attempt with
    | netError =>
      simp only [download_image_go, hg] at h
      cases hrec : download_image_go get filename writeOk fs (attempt + 1) rem with
      | ok r => rw [hrec] at h; exact absurd h (by simp)
      | error e2 =>
        rw [hrec] at h
        obtain rfl : e2 = e := by simpa using h
        exact ih (attempt + 1) _ hrec
    | resp status content =>
      simp only [download_image_go, hg] at h
      by_cases hs : status = 200
      · rw [if_pos hs] at h
        cases hw : writeOk with
        | true => rw [hw] at h; simp at h
        | false =>
          rw [hw] at h
          simp only [Bool.false_eq_true, if_false] at h
          obtain rfl : PyExn.osError = e := by simpa using h
          exact ⟨rfl, rfl⟩
      · rw [if_neg hs] at h
        cases hrec : download_image_go get filename writeOk fs (attempt + 1) rem with
        | ok r => rw [hrec] at h; exact absurd h (by simp)
        | error e2 =>
          rw [hrec] at h
          obtain rfl : e2 = e := by simpa using h
          exact ih (attempt + 1) _ hrec

/-- Relation used to state that the control flow of the retry loop does
not depend on the filesystem it starts from: both runs take the same
branch and agree on everything except the filesystem. -/
def DIRel : Except PyExn DIResult → Except PyExn DIResult → Prop
  | Except.ok r, Except.ok s => r.retval = s.retval ∧ r.gets = s.gets ∧ r.sleeps = s.sleeps
  | Except.error e, Except.error f => e = f
  | _, _ => False

lemma download_image_go_fs_irrel (get : Nat → HttpOutcome) (filename : String)
    (writeOk : Bool) (fs1 fs2 : Fs) :
    ∀ rem attempt, DIRel (download_image_go get filename writeOk fs1 attempt rem)
      (download_image_go get filename writeOk fs2 attempt rem) := by
  intro rem
  induction rem with
  | zero => intro attempt; exact ⟨rfl, rfl, rfl⟩
  | succ rem ih =>
    intro attempt
    cases hg : get attempt with
    | netError =>
      simp only [download_image_go, hg]
      have h := ih (attempt + 1)
      cases h1 : download_image_go get filename writeOk fs1 (attempt + 1) rem with
      | ok r =>
        cases h2 : download_image_go get filename writeOk fs2 (attempt + 1) rem with
        | ok s =>
          rw [h1, h2] at h
          exact ⟨by simpa using h.1, by simpa using h.2.1, by simpa using h.2.2⟩
        | error f => rw [h1, h2] at h; exact absurd h (by simp [DIRel])
      | error e =>
        cases h2 : download_image_go get filename writeOk fs2 (attempt + 1) rem with
        | ok s => rw [h1, h2] at h; exact absurd h (by simp [DIRel])
        | error f => rw [h1, h2] at h; exact h
    | resp status content =>
      by_cases hs : status = 200
      · cases hw : writeOk with
        | true => simp [download_image_go, hg, hs, DIRel]
        | false => simp [download_image_go, hg, hs, DIRel]
      · simp only [download_image_go, hg, if_neg hs]
        have h := ih (attempt + 1)
        cases h1 : download_image_go get filename writeOk fs1 (attempt + 1) rem with
        | ok r =>
          cases h2 : download_image_go get filename writeOk fs2 (attempt + 1) rem with
          | ok s =>
            rw [h1, h2] at h
            exact ⟨by simpa using h.1, by simpa using h.2.1, by simpa using h.2.2⟩
          | error f => rw [h1, h2] at h; exact absurd h (by simp [DIRel])
        | error e =>
          cases h2 : download_image_go get filename writeOk fs2 (attempt + 1) rem with
          | ok s => rw [h1, h2] at h; exact absurd h (by simp [DIRel])
          | error f => rw [h1, h2] at h; exact h

lemma download_image_go_fs_spec (get : Nat → HttpOutcome) (filename : String)
    (writeOk : Bool) (fs : Fs) :
    ∀ rem attempt r, download_image_go get filename writeOk fs attempt rem =
      Except.ok r →
    (r.retval = false → r.fs = fs) ∧
    (r.retval = true → ∃ k body, k < rem ∧
      get (attempt + k) = HttpOutcome.resp 200 body ∧
      (∀ i, i < k → isSuccess (get (attempt + i)) = false) ∧
      r.fs = fsWrite fs filename body) := by
  intro rem
  induction rem with
  | zero =>
    intro attempt r h
    obtain rfl : (⟨false, fs, 0, 0⟩ : DIResult) = r := by
      simpa [download_image_go] using h
    exact ⟨fun _ => rfl, fun hc => by simp at hc⟩
  | succ rem ih =>
    intro attempt r h
    cases hg : get attempt with
    | netError =>
      simp only [download_image_go, hg] at h
      cases hrec : download_image_go get filename writeOk fs (attempt + 1) rem with
      | error e => rw [hrec] at h; exact absurd h (by simp)
      | ok r0 =>
        rw [hrec] at h
        obtain rfl : (⟨r0.retval, r0.fs, r0.gets + 1, r0.sleeps + 1⟩ : DIResult) = r := by
          simpa using h
        obtain ⟨hfalse, htrue⟩ := ih (attempt + 1) r0 hrec
        refine ⟨fun hb => hfalse hb, fun hb => ?_⟩
        obtain ⟨k, body, hk, hget, hfail, hfs⟩ := htrue hb
        refine ⟨k + 1, body, by omega, ?_, ?_, hfs⟩
        · rwa [show attempt + (k + 1) = attempt + 1 + k by omega]
        · intro i hi
          cases i with
          | zero => simp [isSuccess, hg]
          | succ i =>
            have := hfail i (by omega)
            rwa [show attempt + (i + 1) = attempt + 1 + i by omega]
    | resp status content =>
      simp only [download_image_go, hg] at h
      by_cases hs : status = 200
      · rw [if_pos hs] at h
        cases hw : writeOk with
        | false => rw [hw] at h; simp at h
        | true =>
          rw [hw] at h
          simp only [if_true] at h
          obtain rfl : (⟨true, fsWrite fs filename content, 1, 0⟩ : DIResult) = r := by
            simpa using h
          refine ⟨fun hb => by simp at hb, fun _ => ?_⟩
          exact ⟨0, content, Nat.succ_pos rem, by simpa [hs] using hg,
            fun i hi => absurd hi (Nat.not_lt_zero i), rfl⟩
      · rw [if_neg hs] at h
        cases hrec : download_image_go get filename writeOk fs (attempt + 1) rem with
        | error e => rw [hrec] at h; exact absurd h (by simp)
        | ok r0 =>
          rw [hrec] at h
          obtain rfl : (⟨r0.retval, r0.fs, r0.gets + 1, r0.sleeps + 1⟩ : DIResult) = r := by
            simpa using h
          obtain ⟨hfalse, htrue⟩ := ih (attempt + 1) r0 hrec
          refine ⟨fun hb => hfalse hb, fun hb => ?_⟩
          obtain ⟨k, body, hk, hget, hfail, hfs⟩ := htrue hb
          refine ⟨k + 1, body, by omega, ?_, ?_, hfs⟩
          · rwa [show attempt + (k + 1) = attempt + 1 + k by omega]
          · intro i hi
            cases i with
            | zero => simp [isSuccess, hg, hs]
            | succ i =>
              have := hfail i (by omega)
              rwa [show attempt + (i + 1) = attempt + 1 + i by omega]

/-- A scraped record: the Python dict appended to `data` in `scrape_olx`,
kept as an ordered key-value list. -/
abbrev Rec := List (String × String)

/-- Dict lookup `r[key]`; `none` models a `KeyError`. -/
def rget : Rec → String → Option String
  | [], _ => none
  | (k, v) :: rest, key => if k = key then some v else rget rest key

/-- The dict literal built in `scrape_olx` for one successfully
processed card. -/
def mkRecord (name price location timeposted imgfile adurl : String) : Rec :=
  [("Name", name), ("Price", price), ("Location", location),
   ("Time Posted", timeposted), ("Image File", imgfile), ("Ad URL", adurl)]

/-- The five strings `scrape_olx` extracts from one card's DOM: the h6
text, the ad-price text, the location-date text, the image `src` and the
ad link `href`. -/
structure CardFields where
  name : String
  price : String
  locdate : String
  imageUrl : String
  adUrl : String

/-- One listing card together with its environment: `fields` is `none`
when one of the `find_element` calls raises (the card's extraction
fails); `get` gives the outcomes of the GETs of this card's image URL;
`writeOk` whether opening this card's image file for writing succeeds. -/
structure Card where
  fields : Option CardFields
  get : Nat → HttpOutcome
  writeOk : Bool

/-- Python `str.replace(old, new)` for single-character `old` and `new`
(the only use in the source is `name.replace(' ', '_')`), charwise over
the string's characters. -/
def replaceChars (old new : Char) : List Char → List Char
  | [] => []
  | c :: rest => (if c = old then new else c) :: replaceChars old new rest

def pyReplace (s : String) (old new : Char) : String :=
  ⟨replaceChars old new s.data⟩

/-- Does the character list start with `sep`? -/
def startsWithSep : List Char → List Char → Bool
  | [], _ => true
  | _ :: _, [] => false
  | a :: as, b :: bs => a == b && startsWithSep as bs

/-- Left-to-right scan of Python `str.split(sep)` for a non-empty `sep`:
at each position, if `sep` starts here, close the current piece and skip
the separator, else keep the character. The first argument bounds the
number of steps (one character is consumed per step, so
`length + 1` fuel always suffices). -/
def pySplitAux (sep : List Char) : Nat → List Char → List Char → List (List Char)
  | 0, _, acc => [acc.reverse]
  | _ + 1, [], acc => [acc.reverse]
  | fuel + 1, c :: rest, acc =>
    if startsWithSep sep (c :: rest) then
      acc.reverse :: pySplitAux sep fuel (List.drop (sep.length - 1) rest) []
    else pySplitAux sep fuel rest (c :: acc)

/-- Python `str.split(sep)` with an explicit non-empty separator: split
on every non-overlapping occurrence, keeping empty pieces (so the empty
string yields `[""]`, exactly as in Python). -/
def pySplit (s : String) (sep : String) : List String :=
  (pySplitAux sep.data (s.data.length + 1) s.data []).map (fun l => ⟨l⟩)

/-- `os.path.join(IMAGE_DIR, f"{name.replace(' ', '_')}.jpg")`. -/
def imgFilename (name : String) : String :=
  IMAGE_DIR ++ "/" ++ pyReplace name ' ' '_' ++ ".jpg"

/-- `location, timeposted = location_time if len(location_time) == 2 else ("", "")`
where `location_time = text.split(" - ")`. -/
def splitLoc (locdate : String) : String × String :=
  match pySplit locdate " - " with
  | [location, timeposted] => (location, timeposted)
  | _ => ("", "")

/-- The body of the per-card `try`/`except` in `scrape_olx`: extract the
fields, download the image, and on `download_image(...) == True` append
the record. Any exception (an extraction failure or the uncaught
`OSError` escaping `download_image`) is caught by `except Exception` and
yields no record, leaving the filesystem as the failed download left it. -/
def processCard (c : Card) (fs : Fs) : Option Rec × Fs :=
  match c.fields with
  | none => (none, fs)
  | some f =>
    let lt := splitLoc f.locdate
    let fn := imgFilename f.name
    match download_image c.get fn c.writeOk fs RETRIES with
    | Except.error _ => (none, fs)
    | Except.ok r =>
      if r.retval then
        (some (mkRecord f.name f.price lt.1 lt.2 fn f.adUrl), r.fs)
      else (none, r.fs)

/-- The `for card in cards` loop of `scrape_olx` over one page's cards,
threading the filesystem and collecting the appended records in order. -/
def processCards : List Card → Fs → List Rec × Fs
  | [], fs => ([], fs)
  | c :: rest, fs =>
    let pr := processCard c fs
    let tail := processCards rest pr.2
    match pr.1 with
    | some r => (r :: tail.1, tail.2)
    | none => tail

/-- Whether this card contributes a record: its extraction succeeds and
`download_image` returns `True` for it (a fact independent of the
filesystem the download starts from). -/
def cardDownloadOk (c : Card) : Bool :=
  match c.fields with
  | none => false
  | some f =>
    match download_image c.get (imgFilename f.name) c.writeOk [] RETRIES with
    | Except.ok r => r.retval
    | Except.error _ => false

/-- `number_of_pages = int(pages[-1].text) if pages else 1`: parse the
text of the last pagination list item, default 1 when the pagination
element is absent; a non-numeric text makes `int` raise `ValueError`.
(`String.toNat?` models `int` on the nonnegative decimal numerals that
occur as page numbers.) -/
def number_of_pages (pages : List String) : Except PyExn Nat :=
  match pages.getLast? with
  | some t =>
    match t.toNat? with
    | some n => Except.ok n
    | none => Except.error PyExn.valueError
  | none => Except.ok 1

/-- Result of a `scrape_olx` run that returned normally: the records, the
filesystem afterwards, the 1-based numbers of the pages whose cards were
processed, and the page numbers navigated to via the `&page=` URL
parameter. -/
structure ScrapeResult where
  data : List Rec
  fs : Fs
  visited : List Nat
  navs : List Nat

/-- The `for page in range(1, number_of_pages + 1)` loop of `scrape_olx`:
process the current page's cards; while pages remain, navigate to the
next page, where `WebDriverWait` raises `TimeoutException` if no card
appears. The fuel argument is the number of loop iterations left. -/
def scrape_loop (getCards : Nat → List Card) (n : Nat) :
    Nat → Fs → Nat → Except PyExn ScrapeResult
  | _, fs, 0 => Except.ok ⟨[], fs, [], []⟩
  | page, fs, Nat.succ fuel =>
    let pr := processCards (getCards page) fs
    if page < n then
      if (getCards (page + 1)).isEmpty then Except.error PyExn.timeoutException
      else
        match scrape_loop getCards n (page + 1) pr.2 fuel with
        | Except.ok res =>
          Except.ok ⟨pr.1 ++ res.data, res.fs, page :: res.visited, (page + 1) :: res.navs⟩
        | Except.error e => Except.error e
    else Except.ok ⟨pr.1, pr.2, [page], []⟩

/-- `scrape_olx(driver, websitelink)`: load the search page (the
`WebDriverWait` raises `TimeoutException` when no card appears), read the
page count from the pagination element, then run the page loop.
`getCards` gives the cards found on each 1-based page; the `os.makedirs`
call and the scrolling have no observable effect in the model. -/
def scrape_olx (pagination : List String) (getCards : Nat → List Card) (fs : Fs) :
    Except PyExn ScrapeResult :=
  if (getCards 1).isEmpty then Except.error PyExn.timeoutException
  else
    match number_of_pages pagination with
    | Except.error e => Except.error e
    | Except.ok n => scrape_loop getCards n 1 fs n

/-- The header row written by `save_to_excel`. -/
def excelHeaders : List String :=
  ["Name", "Price", "Location", "Time Posted", "Image", "Ad URL"]

/-- The data rows of `save_to_excel`: for each record one row
`[Name, Price, Location, Time Posted, "", Ad URL]` (the Image cell text
is empty; the picture is anchored over it). A missing dict key raises
`KeyError`; `Image(entry["Image File"])` raises when the image file does
not exist on disk. -/
def excelRows : List Rec → Fs → Except PyExn (List (List String))
  | [], _ => Except.ok []
  | entry :: rest, fs =>
    match rget entry "Name", rget entry "Price", rget entry "Location",
          rget entry "Time Posted", rget entry "Ad URL" with
    | some n, some p, some l, some t, some a =>
      match rget entry "Image File" with
      | some i =>
        match fsGet fs i with
        | some _ =>
          match excelRows rest fs with
          | Except.ok rows => Except.ok ([n, p, l, t, "", a] :: rows)
          | Except.error e => Except.error e
        | none => Except.error PyExn.fileNotFoundError
      | none => Except.error PyExn.keyError
    | _, _, _, _, _ => Except.error PyExn.keyError

/-- `save_to_excel(data, filename)`: the cell grid of the produced
worksheet, a header row followed by one data row per record. Column
widths, row heights and the embedded pictures' pixel sizes are styling
with no effect on the grid. -/
def save_to_excel (data : List Rec) (fs : Fs) : Except PyExn (List (List String)) :=
  match excelRows data fs with
  | Except.ok rows => Except.ok (excelHeaders :: rows)
  | Except.error e => Except.error e

/-- `main()` (renamed, since `main` is reserved in Lean): build the search URL, start the browser driver (`driverOk`
is whether `webdriver.Edge()` succeeds), scrape, export. The
`try`/`finally` only quits the driver; it catches nothing, so any
exception from `scrape_olx` or `save_to_excel` escapes. -/
def olx_main (driverOk : Bool) (pagination : List String) (getCards : Nat → List Card)
    (fs : Fs) : Except PyExn (List (List String)) :=
  if driverOk then
    match scrape_olx pagination getCards fs with
    | Except.ok res => save_to_excel res.data res.fs
    | Except.error e => Except.error e
  else Except.error PyExn.driverStartup

lemma processCard_fst_isSome (c : Card) (fs : Fs) :
    (processCard c fs).1.isSome = cardDownloadOk c := by
  cases hf : c.fields with
  | none => simp [processCard, cardDownloadOk, hf]
  | some f =>
    have hrel : DIRel (download_image c.get (imgFilename f.name) c.writeOk fs RETRIES)
        (download_image c.get (imgFilename f.name) c.writeOk [] RETRIES) :=
      download_image_go_fs_irrel c.get (imgFilename f.name) c.writeOk fs [] RETRIES 0
    simp only [processCard, cardDownloadOk, hf]
    cases h1 : download_image c.get (imgFilename f.name) c.writeOk fs RETRIES with
    | ok r =>
      cases h2 : download_image c.get (imgFilename f.name) c.writeOk [] RETRIES with
      | ok s =>
        rw [h1, h2] at hrel
        simp only [DIRel] at hrel
        obtain ⟨hb, -, -⟩ := hrel
        cases hs : s.retval <;> simp [hb, hs]
      | error e => rw [h1, h2] at hrel; exact absurd hrel (by simp [DIRel])
    | error e =>
      cases h2 : download_image c.get (imgFilename f.name) c.writeOk [] RETRIES with
      | ok s => rw [h1, h2] at hrel; exact absurd hrel (by simp [DIRel])
      | error e2 => simp

lemma processCard_fst_some (c : Card) (fs : Fs) (r : Rec) :
    (processCard c fs).1 = some r →
    ∃ f, c.fields = some f ∧
      r = mkRecord f.name f.price (splitLoc f.locdate).1 (splitLoc f.locdate).2
            (imgFilename f.name) f.adUrl := by
  cases hf : c.fields with
  | none => intro h; simp [processCard, hf] at h
  | some f =>
    intro h
    simp only [processCard, hf] at h
    cases hd : download_image c.get (imgFilename f.name) c.writeOk fs RETRIES with
    | error e => rw [hd] at h; simp at h
    | ok r0 =>
      rw [hd] at h
      by_cases hb : r0.retval = true
      · simp only [hb, if_true] at h
        exact ⟨f, rfl, by simpa using h.symm⟩
      · simp [hb] at h

lemma processCards_fst_length (cs : List Card) : ∀ fs,
    (processCards cs fs).1.length = cs.countP cardDownloadOk := by
  induction cs with
  | nil => intro fs; rfl
  | cons c rest ih =>
    intro fs
    have h := processCard_fst_isSome c fs
    simp only [processCards, List.countP_cons]
    cases hp : (processCard c fs).1 with
    | some r =>
      rw [hp] at h
      simp only [Option.isSome_some] at h
      simp [← h, ih]
    | none =>
      rw [hp] at h
      simp only [Option.isSome_none] at h
      simp [← h, ih]

lemma processCards_fst_mem (cs : List Card) : ∀ fs r, r ∈ (processCards cs fs).1 →
    ∃ f : CardFields, r = mkRecord f.name f.price (splitLoc f.locdate).1
      (splitLoc f.locdate).2 (imgFilename f.name) f.adUrl := by
  induction cs with
  | nil => intro fs r h; simp [processCards] at h
  | cons c rest ih =>
    intro fs r h
    simp only [processCards] at h
    cases hp : (processCard c fs).1 with
    | none =>
      simp only [hp] at h
      exact ih (processCard c fs).2 r h
    | some r0 =>
      simp only [hp] at h
      rcases List.mem_cons.mp h with h1 | h2
      · obtain ⟨f, _, hr⟩ := processCard_fst_some c fs r0 hp
        exact ⟨f, h1 ▸ hr⟩
      · exact ih (processCard c fs).2 r h2

lemma scrape_loop_counts (getCards : Nat → List Card) (n : Nat) :
    ∀ fuel page fs res, scrape_loop getCards n page fs fuel = Except.ok res →
    res.data.length =
      (res.visited.map (fun p => (getCards p).countP cardDownloadOk)).sum := by
  intro fuel
  induction fuel with
  | zero =>
    intro page fs res h
    obtain rfl : (⟨[], fs, [], []⟩ : ScrapeResult) = res := by
      simpa [scrape_loop] using h
    simp
  | succ fuel ih =>
    intro page fs res h
    simp only [scrape_loop] at h
    by_cases hlt : page < n
    · rw [if_pos hlt] at h
      by_cases he : (getCards (page + 1)).isEmpty = true
      · rw [if_pos he] at h; simp at h
      · rw [if_neg he] at h
        cases hrec : scrape_loop getCards n (page + 1)
            (processCards (getCards page) fs).2 fuel with
        | error e => rw [hrec] at h; simp at h
        | ok res0 =>
          rw [hrec] at h
          obtain rfl : (⟨(processCards (getCards page) fs).1 ++ res0.data, res0.fs,
              page :: res0.visited, (page + 1) :: res0.navs⟩ : ScrapeResult) = res := by
            simpa using h
          simp only [List.length_append, List.map_cons, List.sum_cons]
          rw [processCards_fst_length, ih (page + 1) _ res0 hrec]
    · rw [if_neg hlt] at h
      obtain rfl : (⟨(processCards (getCards page) fs).1,
          (processCards (getCards page) fs).2, [page], []⟩ : ScrapeResult) = res := by
        simpa using h
      simp [processCards_fst_length]

lemma scrape_loop_mem (getCards : Nat → List Card) (n : Nat) :
    ∀ fuel page fs res, scrape_loop getCards n page fs fuel = Except.ok res →
    ∀ r ∈ res.data, ∃ f : CardFields, r = mkRecord f.name f.price
      (splitLoc f.locdate).1 (splitLoc f.locdate).2 (imgFilename f.name) f.adUrl := by
  intro fuel
  induction fuel with
  | zero =>
    intro page fs res h
    obtain rfl : (⟨[], fs, [], []⟩ : ScrapeResult) = res := by
      simpa [scrape_loop] using h
    intro r hr
    simp at hr
  | succ fuel ih =>
    intro page fs res h
    simp only [scrape_loop] at h
    by_cases hlt : page < n
    · rw [if_pos hlt] at h
      by_cases he : (getCards (page + 1)).isEmpty = true
      · rw [if_pos he] at h; simp at h
      · rw [if_neg he] at h
        cases hrec : scrape_loop getCards n (page + 1)
            (processCards (getCards page) fs).2 fuel with
        | error e => rw [hrec] at h; simp at h
        | ok res0 =>
          rw [hrec] at h
          obtain rfl : (⟨(processCards (getCards page) fs).1 ++ res0.data, res0.fs,
              page :: res0.visited, (page + 1) :: res0.navs⟩ : ScrapeResult) = res := by
            simpa using h
          intro r hr
          rcases List.mem_append.mp hr with h1 | h2
          · exact processCards_fst_mem (getCards page) fs r h1
          · exact ih (page + 1) _ res0 hrec r h2
    · rw [if_neg hlt] at h
      obtain rfl : (⟨(processCards (getCards page) fs).1,
          (processCards (getCards page) fs).2, [page], []⟩ : ScrapeResult) = res := by
        simpa using h
      intro r hr
      exact processCards_fst_mem (getCards page) fs r hr

lemma scrape_loop_ok (getCards : Nat → List Card) (n : Nat)
    (hne : ∀ p, (getCards p).isEmpty = false) :
    ∀ fuel page fs, ∃ res, scrape_loop getCards n page fs fuel = Except.ok res := by
  intro fuel
  induction fuel with
  | zero => intro page fs; exact ⟨⟨[], fs, [], []⟩, rfl⟩
  | succ fuel ih =>
    intro page fs
    by_cases hlt : page < n
    · obtain ⟨res0, hres0⟩ := ih (page + 1) (processCards (getCards page) fs).2
      refine ⟨⟨(processCards (getCards page) fs).1 ++ res0.data, res0.fs,
        page :: res0.visited, (page + 1) :: res0.navs⟩, ?_⟩
      simp only [scrape_loop, if_pos hlt, hne (page + 1), Bool.false_eq_true,
        if_false, hres0]
    · exact ⟨⟨(processCards (getCards page) fs).1,
        (processCards (getCards page) fs).2, [page], []⟩, by
          simp only [scrape_loop, if_neg hlt]⟩

/-- C1: for a URL whose every GET yields a non-200 status (and never a
network error), `download_image` performs exactly `retries` GET attempts,
sleeps the fixed delay after each failed attempt, returns `False`, and
leaves the filesystem unchanged. -/
theorem claim1_all_non200_exhausts_retries (get : Nat → HttpOutcome)
    (filename : String) (writeOk : Bool) (fs : Fs) (retries : Nat)
    (h : ∀ i, i < retries →
      ∃ status content, get i = HttpOutcome.resp status content ∧ status ≠ 200) :
    download_image get filename writeOk fs retries =
      Except.ok ⟨false, fs, retries, retries⟩ := by
  apply download_image_go_allFail
  intro i hi
  obtain ⟨status, content, hg, hs⟩ := h i hi
  rw [Nat.zero_add, hg]
  simp [isSuccess, hs]

theorem claim1_witness :
    download_image (fun _ => HttpOutcome.resp 404 []) "images/cat.jpg" true []
      RETRIES = Except.ok ⟨false, [], RETRIES, RETRIES⟩ :=
  claim1_all_non200_exhausts_retries (fun _ => HttpOutcome.resp 404 [])
    "images/cat.jpg" true [] RETRIES (fun i _ => ⟨404, [], rfl, by decide⟩)

/-- C2: if the GET first succeeds (status 200) on 0-based attempt `k`
with `k < retries`, `download_image` returns `True` after `k + 1` GETs
and the file at the target path afterwards contains exactly the bytes of
that successful response's body. -/
theorem claim2_success_writes_body (get : Nat → HttpOutcome) (filename : String)
    (fs : Fs) (retries k : Nat) (body : List Nat)
    (hk : k < retries) (hsucc : get k = HttpOutcome.resp 200 body)
    (hfail : ∀ i, i < k → isSuccess (get i) = false) :
    download_image get filename true fs retries =
      Except.ok ⟨true, fsWrite fs filename body, k + 1, k⟩ ∧
    fsGet (fsWrite fs filename body) filename = some body := by
  constructor
  · apply download_image_go_firstSuccess get filename fs k retries 0 body hk
    · rwa [Nat.zero_add]
    · intro i hi; rw [Nat.zero_add]; exact hfail i hi
  · simp [fsGet, fsWrite]

theorem claim2_witness :
    download_image
        (fun i => match i with
          | 0 => HttpOutcome.netError
          | 1 => HttpOutcome.resp 500 []
          | _ => HttpOutcome.resp 200 [7, 7])
        "images/dog.jpg" true [] RETRIES =
      Except.ok ⟨true, fsWrite [] "images/dog.jpg" [7, 7], 2 + 1, 2⟩ ∧
    fsGet (fsWrite [] "images/dog.jpg" [7, 7]) "images/dog.jpg" = some [7, 7] :=
  claim2_success_writes_body
    (fun i => match i with
      | 0 => HttpOutcome.netError
      | 1 => HttpOutcome.resp 500 []
      | _ => HttpOutcome.resp 200 [7, 7])
    "images/dog.jpg" [] RETRIES 2 [7, 7] (by decide) rfl
    (fun i hi => by interval_cases i <;> rfl)

/-- C6 counterexample: on a URL that succeeds immediately but a target
path that cannot be opened for writing, `download_image` raises `OSError`
to its caller instead of returning a boolean (the `try` only catches
`requests.RequestException`). -/
theorem claim6_counterexample :
    download_image (fun _ => HttpOutcome.resp 200 [1]) "images/cat.jpg" false []
      RETRIES = Except.error PyExn.osError := rfl

/-- C6 (amended): for every input, HTTP errors and non-200 statuses never
make `download_image` raise — when the file write succeeds it always
returns a boolean — and the only exception that can escape it is the
`OSError` of a failed file write. -/
theorem claim6_only_write_failures_raise :
    (∀ (get : Nat → HttpOutcome) (filename : String) (fs : Fs) (retries : Nat),
      ∃ r, download_image get filename true fs retries = Except.ok r) ∧
    (∀ (get : Nat → HttpOutcome) (filename : String) (writeOk : Bool) (fs : Fs)
      (retries : Nat) (e : PyExn),
      download_image get filename writeOk fs retries = Except.error e →
      e = PyExn.osError ∧ writeOk = false) :=
  ⟨fun get filename fs retries =>
    download_image_go_ok_of_writeOk get filename fs retries 0,
   fun get filename writeOk fs retries e h =>
    download_image_go_error_spec get filename writeOk fs retries 0 e h⟩

theorem claim6_witness :
    PyExn.osError = PyExn.osError ∧ false = false :=
  claim6_only_write_failures_raise.2 (fun _ => HttpOutcome.resp 200 [1])
    "images/cat.jpg" false [] RETRIES PyExn.osError rfl

/-- C8: when `download_image` returns `False` the filesystem is exactly
what it was before the call (no file is created or truncated), and when
it returns `True` the filesystem is the old one with the downloaded body
written at the target path. -/
theorem claim8_writes_iff_true (get : Nat → HttpOutcome) (filename : String)
    (writeOk : Bool) (fs : Fs) (retries : Nat) (r : DIResult)
    (h : download_image get filename writeOk fs retries = Except.ok r) :
    (r.retval = false → r.fs = fs) ∧
    (r.retval = true → ∃ body, fsGet r.fs filename = some body ∧
      r.fs = fsWrite fs filename body) := by
  obtain ⟨hfalse, htrue⟩ :=
    download_image_go_fs_spec get filename writeOk fs retries 0 r h
  refine ⟨hfalse, fun hb => ?_⟩
  obtain ⟨k, body, -, -, -, hfs⟩ := htrue hb
  exact ⟨body, by simp [hfs, fsGet, fsWrite], hfs⟩

theorem claim8_witness :
    ((⟨false, [("images/a.jpg", [2])], RETRIES, RETRIES⟩ : DIResult).retval = false →
      (⟨false, [("images/a.jpg", [2])], RETRIES, RETRIES⟩ : DIResult).fs =
        [("images/a.jpg", [2])]) ∧
    ((⟨false, [("images/a.jpg", [2])], RETRIES, RETRIES⟩ : DIResult).retval = true →
      ∃ body, fsGet (⟨false, [("images/a.jpg", [2])], RETRIES, RETRIES⟩ : DIResult).fs
          "images/b.jpg" = some body ∧
        (⟨false, [("images/a.jpg", [2])], RETRIES, RETRIES⟩ : DIResult).fs =
          fsWrite [("images/a.jpg", [2])] "images/b.jpg" body) :=
  claim8_writes_iff_true (fun _ => HttpOutcome.netError) "images/b.jpg" true
    [("images/a.jpg", [2])] RETRIES ⟨false, [("images/a.jpg", [2])], RETRIES, RETRIES⟩
    (by rfl)

lemma scrape_olx_ok_elim (pagination : List String) (getCards : Nat → List Card)
    (fs : Fs) (res : ScrapeResult)
    (h : scrape_olx pagination getCards fs = Except.ok res) :
    ∃ n, number_of_pages pagination = Except.ok n ∧
      scrape_loop getCards n 1 fs n = Except.ok res := by
  unfold scrape_olx at h
  by_cases he : (getCards 1).isEmpty = true
  · rw [if_pos he] at h; simp at h
  · rw [if_neg he] at h
    cases hn : number_of_pages pagination with
    | error e => rw [hn] at h; simp at h
    | ok n =>
      rw [hn] at h
      exact ⟨n, rfl, h⟩

lemma sum_map_le_sum_map (l : List Nat) (f g : Nat → Nat)
    (h : ∀ x ∈ l, f x ≤ g x) : (l.map f).sum ≤ (l.map g).sum := by
  induction l with
  | nil => simp
  | cons a t ih =>
    simp only [List.map_cons, List.sum_cons]
    exact Nat.add_le_add (h a (List.mem_cons_self a t))
      (ih fun x hx => h x (List.mem_cons_of_mem a hx))

/-- C3: whenever `scrape_olx` returns normally, the number of records is
exactly the number of cards, across all visited pages, whose image
download succeeded, and hence at most the total number of cards
encountered. -/
theorem claim3_output_cardinality (pagination : List String)
    (getCards : Nat → List Card) (fs : Fs) (res : ScrapeResult)
    (h : scrape_olx pagination getCards fs = Except.ok res) :
    res.data.length =
      (res.visited.map (fun p => (getCards p).countP cardDownloadOk)).sum ∧
    res.data.length ≤ (res.visited.map (fun p => (getCards p).length)).sum := by
  obtain ⟨n, -, hloop⟩ := scrape_olx_ok_elim pagination getCards fs res h
  have h1 := scrape_loop_counts getCards n n 1 fs res hloop
  refine ⟨h1, ?_⟩
  rw [h1]
  exact sum_map_le_sum_map res.visited _ _
    (fun p _ => List.countP_le_length cardDownloadOk)

/-- A concrete card whose extraction succeeds and whose image downloads
on the first attempt, and the scrape result it yields, used to witness C3. -/
def wCard3 : Card :=
  ⟨some ⟨"red chair", "100", "Kyiv - today", "http://x/img.jpg", "http://x/ad"⟩,
   fun _ => HttpOutcome.resp 200 [9], true⟩

def wRes3 : ScrapeResult :=
  ⟨[mkRecord "red chair" "100" "Kyiv" "today" "images/red_chair.jpg" "http://x/ad"],
   [("images/red_chair.jpg", [9])], [1], []⟩

theorem claim3_witness :
    wRes3.data.length =
      (wRes3.visited.map (fun _ => [wCard3].countP cardDownloadOk)).sum ∧
    wRes3.data.length ≤ (wRes3.visited.map (fun _ => [wCard3].length)).sum :=
  claim3_output_cardinality [] (fun _ => [wCard3]) [] wRes3 (by rfl)

/-- C5: when the pagination element is absent the page count defaults
to 1, and whenever the reported page count is 1 the scrape processes
exactly page 1 and performs no navigation to a next-page URL. -/
theorem claim5_single_page :
    number_of_pages [] = Except.ok 1 ∧
    ∀ (pagination : List String) (getCards : Nat → List Card) (fs : Fs),
      number_of_pages pagination = Except.ok 1 →
      (getCards 1).isEmpty = false →
      scrape_olx pagination getCards fs =
        Except.ok ⟨(processCards (getCards 1) fs).1,
          (processCards (getCards 1) fs).2, [1], []⟩ := by
  refine ⟨rfl, ?_⟩
  intro pagination getCards fs hn hne
  unfold scrape_olx
  rw [hne, hn]
  simp [scrape_loop]

def wCards5 : Nat → List Card :=
  fun _ => [⟨none, fun _ => HttpOutcome.netError, true⟩]

theorem claim5_witness :
    scrape_olx [] wCards5 [] =
      Except.ok ⟨(processCards (wCards5 1) []).1,
        (processCards (wCards5 1) []).2, [1], []⟩ :=
  claim5_single_page.2 [] wCards5 [] rfl rfl

lemma splitLoc_of_ne_two (s : String) (h : (pySplit s " - ").length ≠ 2) :
    splitLoc s = ("", "") := by
  unfold splitLoc
  cases hl : pySplit s " - " with
  | nil => rfl
  | cons a t =>
    cases t with
    | nil => rfl
    | cons b t2 =>
      cases t2 with
      | nil => exact absurd (by rw [hl]; rfl) h
      | cons c t3 => rfl

/-- C9: every record produced by `scrape_olx` has exactly the six keys
Name, Price, Location, Time Posted, Image File, Ad URL in that order;
and when a card's location-date text does not split on " - " into
exactly two parts, the produced record's Location and Time Posted are
both the empty string. -/
theorem claim9_record_keys_and_split :
    (∀ (pagination : List String) (getCards : Nat → List Card) (fs : Fs)
      (res : ScrapeResult), scrape_olx pagination getCards fs = Except.ok res →
      ∀ r ∈ res.data, r.map Prod.fst =
        ["Name", "Price", "Location", "Time Posted", "Image File", "Ad URL"]) ∧
    (∀ (c : Card) (fs : Fs) (f : CardFields) (r : Rec) (fsOut : Fs),
      c.fields = some f → processCard c fs = (some r, fsOut) →
      (pySplit f.locdate " - ").length ≠ 2 →
      rget r "Location" = some "" ∧ rget r "Time Posted" = some "") := by
  constructor
  · intro pagination getCards fs res h r hr
    obtain ⟨n, -, hloop⟩ := scrape_olx_ok_elim pagination getCards fs res h
    obtain ⟨f, rfl⟩ := scrape_loop_mem getCards n n 1 fs res hloop r hr
    simp [mkRecord]
  · intro c fs f r fsOut hf h hsplit
    have h1 : (processCard c fs).1 = some r := by rw [h]
    obtain ⟨f2, hf2, hr⟩ := processCard_fst_some c fs r h1
    rw [hf] at hf2
    obtain rfl : f = f2 := by simpa using hf2
    rw [splitLoc_of_ne_two f.locdate hsplit] at hr
    subst hr
    simp [mkRecord, rget]

def wCard9 : Card :=
  ⟨some ⟨"blue sofa", "50", "no split here", "http://y/img.jpg", "http://y/ad"⟩,
   fun _ => HttpOutcome.resp 200 [3], true⟩

theorem claim9_witness :
    rget (mkRecord "blue sofa" "50" "" "" "images/blue_sofa.jpg" "http://y/ad")
      "Location" = some "" ∧
    rget (mkRecord "blue sofa" "50" "" "" "images/blue_sofa.jpg" "http://y/ad")
      "Time Posted" = some "" :=
  claim9_record_keys_and_split.2 wCard9 []
    ⟨"blue sofa", "50", "no split here", "http://y/img.jpg", "http://y/ad"⟩
    (mkRecord "blue sofa" "50" "" "" "images/blue_sofa.jpg" "http://y/ad")
    (fsWrite [] "images/blue_sofa.jpg" [3]) rfl (by rfl) (by decide)

lemma processCard_some_fs (c : Card) (fs : Fs) (f : CardFields) (r : Rec)
    (fsOut : Fs) (hf : c.fields = some f)
    (h : processCard c fs = (some r, fsOut)) :
    ∃ body k, k < RETRIES ∧ c.get k = HttpOutcome.resp 200 body ∧
      (∀ i, i < k → isSuccess (c.get i) = false) ∧
      fsOut = fsWrite fs (imgFilename f.name) body := by
  simp only [processCard, hf] at h
  cases hd : download_image c.get (imgFilename f.name) c.writeOk fs RETRIES with
  | error e => rw [hd] at h; simp at h
  | ok r0 =>
    rw [hd] at h
    by_cases hb : r0.retval = true
    · simp only [hb, if_true] at h
      have hfs : r0.fs = fsOut := congrArg Prod.snd h
      obtain ⟨-, htrue⟩ :=
        download_image_go_fs_spec c.get (imgFilename f.name) c.writeOk fs RETRIES 0 r0 hd
      obtain ⟨k, body, hk, hget, hfail, hw⟩ := htrue hb
      exact ⟨body, k, hk, by simpa using hget,
        fun i hi => by simpa using hfail i hi, by rw [← hfs, hw]⟩
    · simp [hb] at h

/-- C10: the image file path of a record depends only on the listing's
name (`images/<name with spaces replaced by underscores>.jpg`), so two
cards with equal names use the same path, and when the second card also
produces a record its successful download wrote its own body over the
first card's file: the path ends up holding the second download's bytes. -/
theorem claim10_path_by_name_overwrites (c1 c2 : Card) (f1 f2 : CardFields)
    (fs : Fs) (_h1 : c1.fields = some f1) (h2 : c2.fields = some f2)
    (hname : f1.name = f2.name) :
    imgFilename f1.name = imgFilename f2.name ∧
    imgFilename f2.name = IMAGE_DIR ++ "/" ++ pyReplace f2.name ' ' '_' ++ ".jpg" ∧
    ∀ o1 fs1 r2 fs2, processCard c1 fs = (o1, fs1) →
      processCard c2 fs1 = (some r2, fs2) →
      ∃ body, (∃ k, k < RETRIES ∧ c2.get k = HttpOutcome.resp 200 body) ∧
        fs2 = fsWrite fs1 (imgFilename f2.name) body ∧
        fsGet fs2 (imgFilename f1.name) = some body := by
  refine ⟨by rw [hname], rfl, ?_⟩
  intro o1 fs1 r2 fs2 _ hp2
  obtain ⟨body, k, hk, hget, -, hfs⟩ := processCard_some_fs c2 fs1 f2 r2 fs2 h2 hp2
  refine ⟨body, ⟨k, hk, hget⟩, hfs, ?_⟩
  rw [hname, hfs]
  simp [fsGet, fsWrite]

def wC10a : Card :=
  ⟨some ⟨"old table", "10", "Lviv - now", "http://a/1.jpg", "http://a/ad1"⟩,
   fun _ => HttpOutcome.resp 200 [1], true⟩

def wC10b : Card :=
  ⟨some ⟨"old table", "20", "Odesa - now", "http://b/2.jpg", "http://b/ad2"⟩,
   fun _ => HttpOutcome.resp 200 [2], true⟩

theorem claim10_witness :
    imgFilename "old table" = imgFilename "old table" ∧
    imgFilename "old table" =
      IMAGE_DIR ++ "/" ++ pyReplace "old table" ' ' '_' ++ ".jpg" ∧
    ∀ o1 fs1 r2 fs2, processCard wC10a [] = (o1, fs1) →
      processCard wC10b fs1 = (some r2, fs2) →
      ∃ body, (∃ k, k < RETRIES ∧ wC10b.get k = HttpOutcome.resp 200 body) ∧
        fs2 = fsWrite fs1 (imgFilename "old table") body ∧
        fsGet fs2 (imgFilename "old table") = some body :=
  claim10_path_by_name_overwrites wC10a wC10b
    ⟨"old table", "10", "Lviv - now", "http://a/1.jpg", "http://a/ad1"⟩
    ⟨"old table", "20", "Odesa - now", "http://b/2.jpg", "http://b/ad2"⟩
    [] rfl rfl rfl

/-- An in-memory listing as the data model describes it: the six fields
of one scraped record. `toRec` builds the corresponding dict. -/
structure Listing where
  name : String
  price : String
  location : String
  timePosted : String
  imageFile : String
  adUrl : String
deriving DecidableEq

def Listing.toRec (l : Listing) : Rec :=
  mkRecord l.name l.price l.location l.timePosted l.imageFile l.adUrl

lemma excelRows_map (fs : Fs) : ∀ ls : List Listing,
    (∀ l ∈ ls, (fsGet fs l.imageFile).isSome = true) →
    excelRows (ls.map Listing.toRec) fs =
      Except.ok (ls.map fun l =>
        [l.name, l.price, l.location, l.timePosted, "", l.adUrl]) := by
  intro ls
  induction ls with
  | nil => intro _; rfl
  | cons l rest ih =>
    intro h
    have hl := h l (List.mem_cons_self l rest)
    obtain ⟨b, hb⟩ := Option.isSome_iff_exists.mp hl
    have hrest := ih (fun x hx => h x (List.mem_cons_of_mem l hx))
    simp [excelRows, Listing.toRec, mkRecord, rget, hb, hrest]

/-- C4: for every in-memory list of records (whose image files exist on
disk, as the records produced by a scrape do), `save_to_excel` yields a
grid of exactly `len(records) + 1` rows: the header row followed, in
order, by one row per record whose non-image cells are that record's
Name, Price, Location, Time Posted and Ad URL verbatim and whose Image
cell text is empty. -/
theorem claim4_export_grid (ls : List Listing) (fs : Fs)
    (himg : ∀ l ∈ ls, (fsGet fs l.imageFile).isSome = true) :
    save_to_excel (ls.map Listing.toRec) fs =
      Except.ok (excelHeaders ::
        ls.map (fun l => [l.name, l.price, l.location, l.timePosted, "", l.adUrl])) ∧
    (excelHeaders ::
      ls.map (fun l => [l.name, l.price, l.location, l.timePosted, "", l.adUrl])).length =
      ls.length + 1 := by
  constructor
  · unfold save_to_excel
    rw [excelRows_map fs ls himg]
  · simp

def wListing4 : Listing :=
  ⟨"green lamp", "30", "Dnipro", "today", "images/green_lamp.jpg", "http://z/ad"⟩

theorem claim4_witness :
    save_to_excel ([wListing4].map Listing.toRec)
        [("images/green_lamp.jpg", [4])] =
      Except.ok (excelHeaders ::
        [wListing4].map (fun l =>
          [l.name, l.price, l.location, l.timePosted, "", l.adUrl])) ∧
    (excelHeaders ::
      [wListing4].map (fun l =>
        [l.name, l.price, l.location, l.timePosted, "", l.adUrl])).length =
      [wListing4].length + 1 :=
  claim4_export_grid [wListing4] [("images/green_lamp.jpg", [4])] (by decide)

/-- C7 counterexample: a run in which the browser driver starts
successfully but the search page shows no listing cards: the
`WebDriverWait` in `scrape_olx` raises `TimeoutException`, nothing
catches it, and the run aborts even though the driver started. -/
theorem claim7_counterexample :
    olx_main true [] (fun _ => []) [] = Except.error PyExn.timeoutException := rfl

/-- C7 (amended): a failed extraction of a single card is skipped (logged
only) and processing continues with the next card, and card-level
failures never abort a scrape; but failures outside the per-card handler
— such as no cards appearing on a page, which makes the wait time out —
abort the run even when the driver started successfully. -/
theorem claim7_skip_cards_but_outer_failures_abort :
    (∀ (c : Card) (cs : List Card) (fs : Fs), c.fields = none →
      processCards (c :: cs) fs = processCards cs fs) ∧
    (∀ (pagination : List String) (getCards : Nat → List Card) (fs : Fs) (n : Nat),
      number_of_pages pagination = Except.ok n →
      (∀ p, (getCards p).isEmpty = false) →
      ∃ res, scrape_olx pagination getCards fs = Except.ok res) := by
  constructor
  · intro c cs fs hf
    simp [processCards, processCard, hf]
  · intro pagination getCards fs n hn hne
    obtain ⟨res, hres⟩ := scrape_loop_ok getCards n hne n 1 fs
    refine ⟨res, ?_⟩
    simp [scrape_olx, hne 1, hn, hres]

theorem claim7_witness :
    processCards [⟨none, fun _ => HttpOutcome.netError, true⟩] [] =
      processCards [] [] :=
  claim7_skip_cards_but_outer_failures_abort.1
    ⟨none, fun _ => HttpOutcome.netError, true⟩ [] [] rfl
